import Mathlib

/-!
Verification of the labcal extraction and normalization pipeline
(`src/labcal/process_cal.py`) against its specification.

The Python source is shallowly embedded: strings are Lean `String`s
(lists of characters), pandas rows are association lists, a raised
Python exception is `Except.error`, and `None` is `Option.none`.
Regex uses in the source are all of a trivial shape (literal keys,
`\d+` digit runs, first-occurrence splitting) and are embedded as the
corresponding executable list operations.  Python `str.lower` is
embedded ASCII-wise extended with the German umlauts that occur in the
canonicalization tables; Python `\s` / `str.strip` whitespace is
embedded as the six ASCII whitespace characters.  Python `\d` is
embedded as the ASCII digits.
-/

namespace Labcal

/-- Whitespace as recognised by Python `str.strip` / regex `\s` (ASCII part). -/
def pyIsSpace (c : Char) : Bool :=
  c = ' ' || c = '\t' || c = '\n' || c = '\r' || c = Char.ofNat 11 || c = Char.ofNat 12

def pyStripList (l : List Char) : List Char :=
  ((l.dropWhile pyIsSpace).reverse.dropWhile pyIsSpace).reverse

/-- Python `str.strip()`. -/
def pyStrip (s : String) : String := ⟨pyStripList s.data⟩

/-- Python `str.lower()`, on the characters relevant to this code base. -/
def pyLowerChar (c : Char) : Char :=
  if c = 'Ä' then 'ä' else if c = 'Ö' then 'ö' else if c = 'Ü' then 'ü' else c.toLower

def pyLower (s : String) : String := ⟨s.data.map pyLowerChar⟩

/-- `needle` occurs as a contiguous sublist of the haystack
(Python `needle in hay` for strings, and `re.search` for the literal
keys used by the source's tables). -/
def isSubList (n : List Char) : List Char → Bool
  | [] => n.isEmpty
  | c :: t => n.isPrefixOf (c :: t) || isSubList n t

/-- Python `needle in hay` for strings. -/
def containsStr (hay needle : String) : Bool := isSubList needle.data hay.data

/-- Split at the first character satisfying `p`, dropping that character:
Python `s.split(sep, maxsplit=1)` / `re.split(pat, s, maxsplit=1)`
restricted to single-character alternatives.  `none` means no occurrence
(Python returns the one-element list). -/
def splitFirstAux (p : Char → Bool) : List Char → Option (List Char × List Char)
  | [] => none
  | c :: t => if p c then some ([], t) else (splitFirstAux p t).map (fun ab => (c :: ab.1, ab.2))

/-- Python `s.split(sep)` (all occurrences, no collapsing). -/
def splitAllAux (p : Char → Bool) : List Char → List (List Char)
  | [] => [[]]
  | c :: t =>
    if p c then [] :: splitAllAux p t
    else
      match splitAllAux p t with
      | [] => [[c]]
      | h :: r => (c :: h) :: r

/-- Python `re.search(r'\d+', s)`: the first maximal run of digits, if any. -/
def searchDigitsAux : List Char → Option (List Char)
  | [] => none
  | c :: t => if c.isDigit then some (c :: t.takeWhile Char.isDigit) else searchDigitsAux t

/-- Python `int` on a string of digits. -/
def natOfDigits (l : List Char) : Nat := l.foldl (fun n c => 10 * n + (c.toNat - 48)) 0

/-- `split_item` from `process_description` (process_cal.py:180-182):
`item.split(' ', maxsplit=1)`, returning the stripped second part when the
split produced two parts, else `None`. -/
def split_item (item : String) : Option String :=
  (splitFirstAux (fun c => c = ' ') item.data).map (fun ab => pyStrip ⟨ab.2⟩)

/-- `re.search(r':|\s', s)` as a Bool (process_cal.py:303,318). -/
def hasColonOrSpace (s : String) : Bool := s.data.any (fun c => c = ':' || pyIsSpace c)

/-- Python `item.startswith(label)`. -/
def pyStartsWith (s p : String) : Bool := p.data.isPrefixOf s.data

/-- `clean_event_category` (process_cal.py:184-197): ordered canonicalization
table, case-insensitive substring match, first canonical label wins, no
match leaves the input unchanged. -/
def clean_event_category (event_category : String) : String :=
  let l := pyLower event_category
  if ["interne veran", "ub intern"].any (fun k => containsStr l k) then "Interne Veranstaltung"
  else if ["veranstaltung/führung"].any (fun k => containsStr l k) then "Führung"
  else if ["seminar"].any (fun k => containsStr l k) then "Lehrveranstaltung"
  else if ["vr-einführung"].any (fun k => containsStr l k) then "Workshop"
  else event_category

/-- `clean_organiser` (process_cal.py:199-209). -/
def clean_organiser (organiser : String) : String :=
  let l := pyLower organiser
  if ["ub"].any (fun k => containsStr l k) then "UB"
  else if ["uni"].any (fun k => containsStr l k) then "Uni"
  else organiser

/-- `clean_organiser_detail` (process_cal.py:211-247); the `re.search` keys
are all literal strings, so the match is substring containment. -/
def clean_organiser_detail (organiser_detail : String) : String :=
  let l := pyLower organiser_detail
  if ["sport"].any (fun k => containsStr l k) then "Institut für Sport"
  else if ["sowi", "social science", "powi"].any (fun k => containsStr l k) then "Social Science"
  else if ["ls bwl", "wirtschaftspädag", "sales services"].any (fun k => containsStr l k) then "BWL"
  else if ["fak jura", "rechtswissenschaft"].any (fun k => containsStr l k) then "Jura"
  else if ["wirtschaftsinformatik"].any (fun k => containsStr l k) then "Wirtschaftsinformatik"
  else if ["philosophische", "phil fak", "philfak", "anglistik", "germanistik"].any (fun k => containsStr l k) then "Philosophische Fakultät"
  else if ["student group x"].any (fun k => containsStr l k) then "Stud.-Initiative X"
  else if ["student group y"].any (fun k => containsStr l k) then "Stud.-Initiative Y"
  else if ["student group z"].any (fun k => containsStr l k) then "Stud.-Initiative Z"
  else if ["uni it"].any (fun k => containsStr l k) then "Universitäts-IT"
  else if ["explab", "ub", "fdz"].any (fun k => containsStr l k) then "Universitätsbibliothek"
  else if ["verwaltung"].any (fun k => containsStr l k) then "Uni Verwaltung"
  else if ["fsr", "fachschaftsr"].any (fun k => containsStr l k) then "Fachschaftsrat"
  else organiser_detail

/-- The five per-item equipment keyword groups of `clean_equipment`
(process_cal.py:249-291), evaluated over the comma-split items. -/
structure EquipFlags where
  vr : Bool
  eye : Bool
  clever : Bool
  monitor : Bool
  dt : Bool
deriving Repr, DecidableEq

def matchesAny (keys : List String) (item : String) : Bool :=
  keys.any (fun k => containsStr (pyLower item) k)

/-- `clean_equipment` (process_cal.py:249-291): each flag is true iff some
comma-split item contains one of its keys (case-insensitive). -/
def clean_equipment (l : List String) : EquipFlags :=
  { vr := l.any (matchesAny ["vr", "virtual"])
    eye := l.any (matchesAny ["eye", "tracking"])
    clever := l.any (matchesAny ["clever", "mobiler"])
    monitor := l.any (matchesAny ["praesentations", "großer monitor", "präsentations"])
    dt := l.any (matchesAny ["dt", "design thinking", "thinking"]) }

/-- The thirteen local variables of `process_description`
(process_cal.py:164-177), all initialized to `None`. -/
structure Desc where
  event_category : Option String
  event_description : Option String
  organiser : Option String
  organiser_detail : Option String
  participant_count : Option String
  equipment : Option Bool
  equipment_vr : Option Bool
  equipment_eye_tracking : Option Bool
  equipment_clevertouch : Option Bool
  equipment_large_monitor : Option Bool
  equipment_design_thinking : Option Bool
  catering : Option Bool
  notes : Option String
deriving Repr, DecidableEq, Inhabited

def defaultDesc : Desc :=
  { event_category := none, event_description := none, organiser := none
    organiser_detail := none, participant_count := none, equipment := none
    equipment_vr := none, equipment_eye_tracking := none, equipment_clevertouch := none
    equipment_large_monitor := none, equipment_design_thinking := none
    catering := none, notes := none }

/-- The "Kategorie" branch (process_cal.py:301-313).  Note that when the
colon-or-comma split yields a single part, nothing is assigned, but the
trailing `if event_category:` re-cleaning still applies to a value left by
an earlier paragraph. -/
def procKategorie (d : Desc) (item : String) : Desc :=
  match split_item item with
  | none => d
  | some r =>
    if r = "" then d
    else if !hasColonOrSpace r then d
    else
      match splitFirstAux (fun c => c = ':' || c = ',') r.data with
      | some (a, b) =>
        let cat0 := pyStrip ⟨a⟩
        let cat := if cat0 = "" then cat0 else clean_event_category cat0
        { d with event_category := some cat, event_description := some (pyStrip ⟨b⟩) }
      | none =>
        match d.event_category with
        | some c => if c = "" then d else { d with event_category := some (clean_event_category c) }
        | none => d

/-- First statement of the "Veranstalter" branch body
(process_cal.py:319-324): assign both parts when the colon split yielded
two parts. -/
def veranstalterAssign (d : Desc) (r : String) : Desc :=
  match splitFirstAux (fun c => c = ':') r.data with
  | some (a, b) => { d with organiser := some (pyStrip ⟨a⟩), organiser_detail := some (pyStrip ⟨b⟩) }
  | none => d

/-- `if organiser: organiser = clean_organiser(organiser)`
(process_cal.py:328-329). -/
def veranstalterCleanOrg (d : Desc) : Desc :=
  match d.organiser with
  | some o => if o = "" then d else { d with organiser := some (clean_organiser o) }
  | none => d

/-- `if organiser_detail: ... else: organiser_detail = organiser`
(process_cal.py:331-335). -/
def veranstalterDetail (d : Desc) : Desc :=
  match d.organiser_detail with
  | some od =>
    if od = "" then { d with organiser_detail := d.organiser }
    else { d with organiser_detail := some (clean_organiser_detail od) }
  | none => { d with organiser_detail := d.organiser }

/-- The "Veranstalter" branch (process_cal.py:316-335), mirroring the
source's statement order. -/
def procVeranstalter (d : Desc) (item : String) : Desc :=
  match split_item item with
  | none => d
  | some r =>
    if r = "" then d
    else if !hasColonOrSpace r then d
    else veranstalterDetail (veranstalterCleanOrg (veranstalterAssign d r))

/-- The "Teilnehmer" branch (process_cal.py:338-358).  In the hyphen case
the source calls `re.match(r'\d+', ...).group(0)` without a `None` check:
when no digit follows the hyphen this raises `AttributeError`. -/
def procTeilnehmer (d : Desc) (item : String) : Except String Desc :=
  match split_item item with
  | none => .ok { d with participant_count := none }
  | some r =>
    if r = "" then .ok { d with participant_count := none }
    else
      let r2 := pyStrip r
      if r2 ≠ "" ∧ r2.data.any (fun c => c = '-') then
        let second := pyStripList ((splitAllAux (fun c => c = '-') r2.data).getD 1 [])
        let run := second.takeWhile Char.isDigit
        if run = [] then .error "AttributeError: NoneType object has no attribute group"
        else .ok { d with participant_count := some ⟨run⟩ }
      else
        match searchDigitsAux r2.data with
        | some run => .ok { d with participant_count := some ⟨run⟩ }
        | none => .ok { d with participant_count := none }

/-- Overwrite the six equipment variables from a comma-split list
(the truthy `if equipment_split:` body, process_cal.py:369-376);
`equipment` is the disjunction of the five sub-flags. -/
def setEquip (d : Desc) (sp : List String) : Desc :=
  let q := clean_equipment sp
  { d with equipment := some (q.vr || q.eye || q.clever || q.monitor || q.dt)
           equipment_vr := some q.vr
           equipment_eye_tracking := some q.eye
           equipment_clevertouch := some q.clever
           equipment_large_monitor := some q.monitor
           equipment_design_thinking := some q.dt }

/-- The tail of the "Technik" branch when `result` was falsy
(process_cal.py:366-376): `equipment_split` is referenced although this
dataflow path never assigned it; if no earlier Technik paragraph bound it
(state `none`) Python raises `UnboundLocalError`, otherwise the stale
value is reused. -/
def technikFalsy (d : Desc) (es : Option (List String)) :
    Except String (Desc × Option (List String)) :=
  match es with
  | none => .error "UnboundLocalError: equipment_split referenced before assignment"
  | some l => if l = [] then .ok (d, es) else .ok (setEquip d l, es)

/-- `result.split(',')` with each item stripped (process_cal.py:364-365). -/
def technikSplit (r : String) : List String :=
  (splitAllAux (fun c => c = ',') r.data).map (fun l => pyStrip ⟨l⟩)

/-- The "Technik" branch (process_cal.py:360-376). -/
def procTechnik (d : Desc) (es : Option (List String)) (item : String) :
    Except String (Desc × Option (List String)) :=
  match split_item item with
  | none => technikFalsy { d with equipment := some false } es
  | some r =>
    if r = "" then technikFalsy { d with equipment := some false } es
    else if technikSplit r = [] then .ok (d, some (technikSplit r))
    else .ok (setEquip d (technikSplit r), some (technikSplit r))

/-- The "Catering" branch (process_cal.py:378-384): true iff the truthy
text after the label contains the literal (case-sensitive) "ja". -/
def procCatering (d : Desc) (item : String) : Desc :=
  match split_item item with
  | none => { d with catering := some false }
  | some r =>
    if r ≠ "" ∧ containsStr r "ja" then { d with catering := some true }
    else { d with catering := some false }

/-- The "Anmerkung" branch (process_cal.py:386-392). -/
def procAnmerkung (d : Desc) (item : String) : Desc :=
  match split_item item with
  | none => { d with notes := none }
  | some r => if r = "" then { d with notes := none } else { d with notes := some (pyStrip r) }

/-- Dispatch on the leading label (the `startswith` chain,
process_cal.py:294-392).  The state carries the parser's thirteen
variables plus the `equipment_split` local (unbound = `none`).  Items are
strings here, so the source's `pd.notna`/`isinstance` guards are always
satisfied. -/
def processItem (st : Desc × Option (List String)) (item : String) :
    Except String (Desc × Option (List String)) :=
  if pyStartsWith item "Kategorie" then .ok (procKategorie st.1 item, st.2)
  else if pyStartsWith item "Veranstalter" then .ok (procVeranstalter st.1 item, st.2)
  else if pyStartsWith item "Teilnehmer" then (procTeilnehmer st.1 item).map (fun d => (d, st.2))
  else if pyStartsWith item "Technik" then procTechnik st.1 st.2 item
  else if pyStartsWith item "Catering" then .ok (procCatering st.1 item, st.2)
  else if pyStartsWith item "Anmerkung" then .ok (procAnmerkung st.1 item, st.2)
  else .ok st

/-- Exception propagation: continue with `k` on a normal value, abort on a
raised exception. -/
def exceptStep {β γ : Type} : Except String β → (β → Except String γ) → Except String γ
  | .error e, _ => .error e
  | .ok b, k => k b

theorem exceptStep_error {β γ : Type} (e : String) (k : β → Except String γ) :
    exceptStep (.error e) k = .error e := rfl

theorem exceptStep_ok {β γ : Type} (b : β) (k : β → Except String γ) :
    exceptStep (.ok b) k = k b := rfl

/-- Left-to-right processing of the paragraphs; the first raised exception
aborts the whole call, as in Python. -/
def runItems (st : Desc × Option (List String)) :
    List String → Except String (Desc × Option (List String))
  | [] => .ok st
  | item :: rest => exceptStep (processItem st item) (fun st1 => runItems st1 rest)

/-- `process_description` (process_cal.py:140-396) on a list of paragraph
strings. -/
def process_description (series : List String) : Except String Desc :=
  match runItems (defaultDesc, none) series with
  | .error e => .error e
  | .ok st => .ok st.1

/-! ## Table assembly (process_cal.py:30-137) -/

/-- One line of `clean_event_data` (process_cal.py:44-56): drop `\r`,
replace the two-character escape `\n` by the paragraph separator `¶`,
drop remaining backslashes, strip. -/
def replEscapedNewline : List Char → List Char
  | [] => []
  | '\\' :: 'n' :: t => '¶' :: replEscapedNewline t
  | c :: t => c :: replEscapedNewline t

def clean_event_line (line : String) : String :=
  pyStrip ⟨(replEscapedNewline (line.data.filter (fun c => c ≠ '\r'))).filter (fun c => c ≠ '\\')⟩

/-- Python dict insertion with last-write-wins, preserving first-insertion
order. -/
def dictInsert (d : List (String × String)) (k v : String) : List (String × String) :=
  if d.any (fun kv => kv.1 = k) then d.map (fun kv => if kv.1 = k then (k, v) else kv)
  else d ++ [(k, v)]

/-- `parse_event` (process_cal.py:30-41): split each line on the first
colon into key and value; lines without a colon contribute nothing. -/
def parse_event (lines : List String) : List (String × String) :=
  lines.foldl
    (fun acc line =>
      match splitFirstAux (fun c => c = ':') line.data with
      | some (k, v) => dictInsert acc ⟨k⟩ ⟨v⟩
      | none => acc)
    []

/-- The raw table: the union of the observed field names as columns, one
row per event, each row holding exactly one (possibly null) value per
column.  (pandas column order comes from a Python `set` and is not
semantically significant; here it is first-seen order.) -/
structure RawDF where
  cols : List String
  rows : List (List (String × Option String))
deriving Repr, DecidableEq

def addKey (acc : List String) (k : String) : List String :=
  if k ∈ acc then acc else acc ++ [k]

def unionKeys (events : List (List (String × String))) : List String :=
  events.foldl (fun acc ev => ev.foldl (fun acc2 kv => addKey acc2 kv.1) acc) []

/-- `create_dataframe_from_calendar` (process_cal.py:59-137).  An event is
represented by its serialized text (the `ics` library's
`event.serialize()` is an external collaborator): the function splits it
into lines, cleans them, parses key/values, and materializes the
null-filled table. -/
def create_dataframe_from_calendar (cal : List String) : RawDF :=
  let calendar_data := cal.map (fun ev => (splitAllAux (fun c => c = '\n') ev.data).map (fun l => clean_event_line ⟨l⟩))
  let parsed := calendar_data.map parse_event
  let columns := unionKeys parsed
  { cols := columns
    rows := parsed.map (fun ev => columns.map (fun c => (c, ev.lookup c))) }

/-! ## Column normalization (process_cal.py:399-492) -/

/-- Value of column `c` in a raw row (`none` for the null marker or an
absent key). -/
def rowVal (r : List (String × Option String)) (c : String) : Option String :=
  (r.lookup c).join

def countNonNull (df : RawDF) (c : String) : Nat :=
  (df.rows.filter (fun r => (rowVal r c).isSome)).length

/-- `temp_df.dropna(axis=1, thresh=len(temp_df)/100*5)`
(process_cal.py:433-435): keep a column iff its non-null count is at
least 5% of the row count.  The Python threshold is the float
`len/100*5`; the comparison `count ≥ len/100*5` is embedded exactly as
the rational comparison `20 * count ≥ len` (for row counts up to
millions the float and rational comparisons coincide on integers). -/
def dropSparse (df : RawDF) : RawDF :=
  let keep := df.cols.filter (fun c => 20 * countNonNull df c ≥ df.rows.length)
  { cols := keep
    rows := df.rows.map (fun r => r.filter (fun kv => kv.1 ∈ keep)) }

def denylist : List String :=
  ["X-MICROSOFT-CDO-BUSYSTATUS", "CLASS", "PRIORITY", "DTSTAMP",
   "TRANSP", "SEQUENCE", "LAST-MODIFIED", "BEGIN", "END", "STATUS"]

/-- The fixed denylist drop (process_cal.py:437-443). -/
def dropDenylist (df : RawDF) : RawDF :=
  { cols := df.cols.filter (fun c => c ∉ denylist)
    rows := df.rows.map (fun r => r.filter (fun kv => kv.1 ∉ denylist)) }

/-- `df['DESCRIPTION'].str.split('¶')` for one row
(process_cal.py:446): `none` when the description is null (pandas NaN,
on which `process_description` returns all defaults). -/
def descListOfRow (r : List (String × Option String)) : Option (List String) :=
  (rowVal r "DESCRIPTION").map (fun s => (splitAllAux (fun c => c = '¶') s.data).map (fun l => (⟨l⟩ : String)))

/-- `fillna(0).astype('int16')` on one participant-count cell
(process_cal.py:484-485): null becomes 0; a parsed digit string becomes
its integer value, which numpy refuses to store when it exceeds the
int16 range (OverflowError on current numpy/pandas). -/
def coerceCount : Option String → Except String Int
  | none => .ok 0
  | some s =>
    let n := natOfDigits s.data
    if n < 32768 then .ok (n : Int) else .error "OverflowError: int16"

/-- One row of the final normalized table (columns after renaming,
reordering and dtype coercion, process_cal.py:445-492).  The three date
columns are covered by an external `pd.to_datetime(..., errors='coerce')`
and no claim concerns them, so their raw string values are kept. -/
structure FinalRow where
  id : Option String
  created : Option String
  event_title : Option String
  event_start : Option String
  event_end : Option String
  event_category : Option String
  event_description : Option String
  event_desc_list : Option (List String)
  event_desc : Option String
  organiser : Option String
  organiser_detail : Option String
  participant_count : Int
  equip : Option Bool
  equip_clevertouch : Option Bool
  equip_dt : Option Bool
  equip_eyetracking : Option Bool
  equip_monitor : Option Bool
  equip_vr : Option Bool
  catering : Option Bool
  notes : Option String
deriving Repr, DecidableEq, Inhabited

/-- Assemble a final row from the surviving raw row, the split
description, the parsed description record and the coerced participant
count (the renames of process_cal.py:449-471 and the assignment of the
thirteen parser columns, process_cal.py:460-464). -/
def mkFinalRow (r : List (String × Option String)) (dl : Option (List String)) (d : Desc) (pc : Int) :
    FinalRow :=
  { id := rowVal r "UID", created := rowVal r "CREATED", event_title := rowVal r "SUMMARY"
    event_start := rowVal r "DTSTART", event_end := rowVal r "DTEND"
    event_category := d.event_category, event_description := d.event_description
    event_desc_list := dl, event_desc := rowVal r "DESCRIPTION"
    organiser := d.organiser, organiser_detail := d.organiser_detail
    participant_count := pc
    equip := d.equipment, equip_clevertouch := d.equipment_clevertouch
    equip_dt := d.equipment_design_thinking, equip_eyetracking := d.equipment_eye_tracking
    equip_monitor := d.equipment_large_monitor, equip_vr := d.equipment_vr
    catering := d.catering, notes := d.notes }

/-- Row-wise `apply(process_description)` with pandas exception
propagation: the first raised exception aborts the whole call. -/
def exceptMapM (f : α → Except String β) : List α → Except String (List β)
  | [] => .ok []
  | a :: l => exceptStep (f a) (fun b => (exceptMapM f l).map (fun bs => b :: bs))

/-- The description-parsing pass over one row (process_cal.py:446,460-464). -/
def parseRow (r : List (String × Option String)) :
    Except String (List (String × Option String) × Option (List String) × Desc) :=
  match descListOfRow r with
  | none => .ok (r, none, defaultDesc)
  | some l => (process_description l).map (fun d => (r, some l, d))

/-- The dtype-coercion pass over one parsed row (process_cal.py:481-490). -/
def coerceRow (t : List (String × Option String) × Option (List String) × Desc) :
    Except String FinalRow :=
  (coerceCount t.2.2.participant_count).map (fun pc => mkFinalRow t.1 t.2.1 t.2.2 pc)

/-- `clean_calendar_dataframe` (process_cal.py:399-492): sparse-column
drop, denylist drop, then the description split — a `KeyError` when the
DESCRIPTION column is absent (in particular on an empty table) — then
the parser pass over all rows followed by the dtype pass. -/
def clean_calendar_dataframe (df : RawDF) : Except String (List FinalRow) :=
  if "DESCRIPTION" ∈ (dropDenylist (dropSparse df)).cols then
    match exceptMapM parseRow (dropDenylist (dropSparse df)).rows with
    | .error e => .error e
    | .ok parsed => exceptMapM coerceRow parsed
  else .error "KeyError: DESCRIPTION"

/-- The whole core pipeline on a list of serialized events. -/
def pipeline (cal : List String) : Except String (List FinalRow) :=
  clean_calendar_dataframe (create_dataframe_from_calendar cal)

/-! ## Proof-support definitions -/

/-- The six equipment variables of the parser state, as a tuple. -/
def equipFields (d : Desc) :
    Option Bool × Option Bool × Option Bool × Option Bool × Option Bool × Option Bool :=
  (d.equipment, d.equipment_vr, d.equipment_eye_tracking, d.equipment_clevertouch,
   d.equipment_large_monitor, d.equipment_design_thinking)

/-- Consistency of the equipment variables: either all six are still
unset, or all six are set and `equipment` is the disjunction of the five
sub-flags (in the dict order vr, eye, clevertouch, monitor, dt). -/
def EquipOkT (t : Option Bool × Option Bool × Option Bool × Option Bool × Option Bool × Option Bool) :
    Prop :=
  (t.1 = none ∧ t.2.1 = none ∧ t.2.2.1 = none ∧ t.2.2.2.1 = none ∧
   t.2.2.2.2.1 = none ∧ t.2.2.2.2.2 = none)
  ∨ (∃ b1 b2 b3 b4 b5,
      t.2.1 = some b1 ∧ t.2.2.1 = some b2 ∧ t.2.2.2.1 = some b3 ∧
      t.2.2.2.2.1 = some b4 ∧ t.2.2.2.2.2 = some b5 ∧
      t.1 = some (b1 || b2 || b3 || b4 || b5))

/-! ## Frame lemmas for the per-label branches -/

theorem procKategorie_frame (d : Desc) (item : String) :
    equipFields (procKategorie d item) = equipFields d ∧
    (procKategorie d item).catering = d.catering := by
  unfold procKategorie
  repeat' split
  all_goals exact ⟨rfl, rfl⟩

theorem veranstalterAssign_frame (d : Desc) (r : String) :
    equipFields (veranstalterAssign d r) = equipFields d ∧
    (veranstalterAssign d r).catering = d.catering := by
  unfold veranstalterAssign
  repeat' split
  all_goals exact ⟨rfl, rfl⟩

theorem veranstalterCleanOrg_frame (d : Desc) :
    equipFields (veranstalterCleanOrg d) = equipFields d ∧
    (veranstalterCleanOrg d).catering = d.catering := by
  unfold veranstalterCleanOrg
  repeat' split
  all_goals exact ⟨rfl, rfl⟩

theorem veranstalterDetail_frame (d : Desc) :
    equipFields (veranstalterDetail d) = equipFields d ∧
    (veranstalterDetail d).catering = d.catering := by
  unfold veranstalterDetail
  repeat' split
  all_goals exact ⟨rfl, rfl⟩

theorem procVeranstalter_frame (d : Desc) (item : String) :
    equipFields (procVeranstalter d item) = equipFields d ∧
    (procVeranstalter d item).catering = d.catering := by
  unfold procVeranstalter
  repeat' split
  all_goals first
    | exact ⟨rfl, rfl⟩
    | exact ⟨((veranstalterDetail_frame _).1.trans
               ((veranstalterCleanOrg_frame _).1.trans (veranstalterAssign_frame _ _).1)),
             ((veranstalterDetail_frame _).2.trans
               ((veranstalterCleanOrg_frame _).2.trans (veranstalterAssign_frame _ _).2))⟩

theorem procTeilnehmer_frame (d d' : Desc) (item : String)
    (h : procTeilnehmer d item = .ok d') :
    equipFields d' = equipFields d ∧ d'.catering = d.catering := by
  unfold procTeilnehmer at h
  dsimp only at h
  repeat' split at h
  all_goals first
    | exact Except.noConfusion h
    | (injection h with h; subst h; exact ⟨rfl, rfl⟩)

theorem procCatering_equip (d : Desc) (item : String) :
    equipFields (procCatering d item) = equipFields d := by
  unfold procCatering
  repeat' split
  all_goals rfl

theorem procAnmerkung_frame (d : Desc) (item : String) :
    equipFields (procAnmerkung d item) = equipFields d ∧
    (procAnmerkung d item).catering = d.catering := by
  unfold procAnmerkung
  repeat' split
  all_goals exact ⟨rfl, rfl⟩

theorem setEquip_equipOk (d : Desc) (sp : List String) :
    EquipOkT (equipFields (setEquip d sp)) :=
  Or.inr ⟨_, _, _, _, _, rfl, rfl, rfl, rfl, rfl, rfl⟩

theorem setEquip_catering (d : Desc) (sp : List String) :
    (setEquip d sp).catering = d.catering := rfl

theorem splitAllAux_ne_nil (p : Char → Bool) (l : List Char) : splitAllAux p l ≠ [] := by
  cases l with
  | nil => simp [splitAllAux]
  | cons c t =>
    unfold splitAllAux
    split
    · simp
    · split <;> simp

theorem technikSplit_ne_nil (r : String) : technikSplit r ≠ [] := by
  unfold technikSplit
  simp only [ne_eq, List.map_eq_nil_iff]
  exact splitAllAux_ne_nil _ _

theorem technikFalsy_ok (d d' : Desc) (es es' : Option (List String))
    (h : technikFalsy d es = .ok (d', es'))
    (hes : ∀ l, es = some l → l ≠ []) :
    EquipOkT (equipFields d') ∧ es' = es ∧ d'.catering = d.catering := by
  unfold technikFalsy at h
  cases es with
  | none => exact Except.noConfusion h
  | some l =>
    dsimp only at h
    rw [if_neg (hes l rfl)] at h
    injection h with h
    injection h with h1 h2
    subst h2
    exact ⟨h1 ▸ setEquip_equipOk _ _, rfl, h1 ▸ rfl⟩

theorem procTechnik_ok (d d' : Desc) (es es' : Option (List String)) (item : String)
    (h : procTechnik d es item = .ok (d', es'))
    (hes : ∀ l, es = some l → l ≠ []) :
    (EquipOkT (equipFields d') ∧ ∀ l, es' = some l → l ≠ []) ∧ d'.catering = d.catering := by
  unfold procTechnik at h
  have hfal : ∀ h0 : technikFalsy { d with equipment := some false } es = .ok (d', es'),
      (EquipOkT (equipFields d') ∧ ∀ l, es' = some l → l ≠ []) ∧ d'.catering = d.catering := by
    intro h0
    obtain ⟨hok, hes', hcat⟩ := technikFalsy_ok _ _ _ _ h0 hes
    exact ⟨⟨hok, hes' ▸ hes⟩, hcat⟩
  cases hsi : split_item item with
  | none => rw [hsi] at h; exact hfal h
  | some r =>
    rw [hsi] at h
    dsimp only at h
    by_cases hr : r = ""
    · rw [if_pos hr] at h; exact hfal h
    · rw [if_neg hr, if_neg (technikSplit_ne_nil r)] at h
      injection h with h
      injection h with h1 h2
      subst h2
      refine ⟨⟨h1 ▸ setEquip_equipOk _ _, ?_⟩, h1 ▸ rfl⟩
      intro l hl
      injection hl with hl
      exact hl ▸ technikSplit_ne_nil r

/-! ## Invariants along the paragraph fold -/

theorem processItem_ok_inv (st st' : Desc × Option (List String)) (item : String)
    (h : processItem st item = .ok st')
    (hinv : EquipOkT (equipFields st.1) ∧ ∀ l, st.2 = some l → l ≠ []) :
    EquipOkT (equipFields st'.1) ∧ ∀ l, st'.2 = some l → l ≠ [] := by
  unfold processItem at h
  split at h
  · injection h with h; subst h
    refine ⟨?_, hinv.2⟩
    rw [(procKategorie_frame st.1 item).1]
    exact hinv.1
  · split at h
    · injection h with h; subst h
      refine ⟨?_, hinv.2⟩
      rw [(procVeranstalter_frame st.1 item).1]
      exact hinv.1
    · split at h
      · cases hp : procTeilnehmer st.1 item with
        | error e => rw [hp] at h; exact Except.noConfusion h
        | ok d1 =>
          rw [hp] at h
          injection h with h; subst h
          refine ⟨?_, hinv.2⟩
          rw [(procTeilnehmer_frame st.1 d1 item hp).1]
          exact hinv.1
      · split at h
        · obtain ⟨d', es'⟩ := st'
          exact (procTechnik_ok st.1 d' st.2 es' item h hinv.2).1
        · split at h
          · injection h with h; subst h
            refine ⟨?_, hinv.2⟩
            rw [procCatering_equip st.1 item]
            exact hinv.1
          · split at h
            · injection h with h; subst h
              refine ⟨?_, hinv.2⟩
              rw [(procAnmerkung_frame st.1 item).1]
              exact hinv.1
            · injection h with h; subst h
              exact hinv

theorem runItems_inv :
    ∀ (xs : List String) (st st' : Desc × Option (List String)),
      runItems st xs = .ok st' →
      (EquipOkT (equipFields st.1) ∧ ∀ l, st.2 = some l → l ≠ []) →
      EquipOkT (equipFields st'.1) ∧ ∀ l, st'.2 = some l → l ≠ [] := by
  intro xs
  induction xs with
  | nil =>
    intro st st' h hinv
    replace h : Except.ok st = Except.ok st' := h
    injection h with h
    subst h
    exact hinv
  | cons item rest ih =>
    intro st st' h hinv
    replace h : exceptStep (processItem st item) (fun st1 => runItems st1 rest) = .ok st' := h
    cases hp : processItem st item with
    | error e => rw [hp, exceptStep_error] at h; exact Except.noConfusion h
    | ok st1 =>
      rw [hp, exceptStep_ok] at h
      exact ih st1 st' h (processItem_ok_inv st st1 item hp hinv)

/-- Equipment consistency of every successful parse: either all six
equipment outputs are unset, or all are set and `equipment` is the
disjunction of the sub-flags. -/
theorem process_description_equipOk (xs : List String) (d : Desc)
    (h : process_description xs = .ok d) : EquipOkT (equipFields d) := by
  unfold process_description at h
  cases hr : runItems (defaultDesc, none) xs with
  | error e => rw [hr] at h; exact Except.noConfusion h
  | ok st =>
    rw [hr] at h
    injection h with h
    subst h
    exact (runItems_inv xs (defaultDesc, none) st hr
      ⟨Or.inl ⟨rfl, rfl, rfl, rfl, rfl, rfl⟩, fun l hl => Option.noConfusion hl⟩).1

theorem procTechnik_catering (d d' : Desc) (es es' : Option (List String)) (item : String)
    (h : procTechnik d es item = .ok (d', es')) : d'.catering = d.catering := by
  unfold procTechnik at h
  have hfal : ∀ d0 : Desc, d0.catering = d.catering →
      technikFalsy d0 es = .ok (d', es') → d'.catering = d.catering := by
    intro d0 hd0 h0
    unfold technikFalsy at h0
    cases es with
    | none => exact Except.noConfusion h0
    | some l =>
      dsimp only at h0
      split at h0
      · injection h0 with h0
        injection h0 with h1 h2
        rw [← h1]
        exact hd0
      · injection h0 with h0
        injection h0 with h1 h2
        rw [← h1, setEquip_catering]
        exact hd0
  cases hsi : split_item item with
  | none =>
    rw [hsi] at h
    dsimp only at h
    exact hfal { d with equipment := some false } rfl h
  | some r =>
    rw [hsi] at h
    dsimp only at h
    split at h
    · exact hfal { d with equipment := some false } rfl h
    · split at h
      · injection h with h
        injection h with h1 h2
        rw [← h1]
      · injection h with h
        injection h with h1 h2
        rw [← h1, setEquip_catering]

theorem processItem_frames (st st' : Desc × Option (List String)) (item : String)
    (h : processItem st item = .ok st') :
    (pyStartsWith item "Technik" = false → equipFields st'.1 = equipFields st.1) ∧
    (pyStartsWith item "Catering" = false → st'.1.catering = st.1.catering) := by
  unfold processItem at h
  split at h
  · injection h with h; subst h
    refine ⟨fun _ => ?_, fun _ => ?_⟩
    · rw [(procKategorie_frame st.1 item).1]
    · rw [(procKategorie_frame st.1 item).2]
  · split at h
    · injection h with h; subst h
      refine ⟨fun _ => ?_, fun _ => ?_⟩
      · rw [(procVeranstalter_frame st.1 item).1]
      · rw [(procVeranstalter_frame st.1 item).2]
    · split at h
      · cases hp : procTeilnehmer st.1 item with
        | error e => rw [hp] at h; exact Except.noConfusion h
        | ok d1 =>
          rw [hp] at h
          injection h with h; subst h
          refine ⟨fun _ => ?_, fun _ => ?_⟩
          · rw [(procTeilnehmer_frame st.1 d1 item hp).1]
          · rw [(procTeilnehmer_frame st.1 d1 item hp).2]
      · split at h
        · rename_i hT2
          obtain ⟨d', es'⟩ := st'
          refine ⟨fun hT => ?_, fun _ => ?_⟩
          · rw [hT] at hT2
            exact absurd hT2 (by simp)
          · exact procTechnik_catering st.1 d' st.2 es' item h
        · split at h
          · injection h with h; subst h
            refine ⟨fun _ => ?_, fun hC => ?_⟩
            · rw [procCatering_equip st.1 item]
            · rename_i hC2
              rw [hC] at hC2
              exact absurd hC2 (by simp)
          · split at h
            · injection h with h; subst h
              refine ⟨fun _ => ?_, fun _ => ?_⟩
              · rw [(procAnmerkung_frame st.1 item).1]
              · rw [(procAnmerkung_frame st.1 item).2]
            · injection h with h; subst h
              exact ⟨fun _ => rfl, fun _ => rfl⟩

theorem runItems_no_technik :
    ∀ (xs : List String) (st st' : Desc × Option (List String)),
      (∀ item ∈ xs, pyStartsWith item "Technik" = false) →
      runItems st xs = .ok st' →
      equipFields st'.1 = equipFields st.1 := by
  intro xs
  induction xs with
  | nil =>
    intro st st' _ h
    replace h : Except.ok st = Except.ok st' := h
    injection h with h
    subst h
    rfl
  | cons item rest ih =>
    intro st st' hT h
    replace h : exceptStep (processItem st item) (fun st1 => runItems st1 rest) = .ok st' := h
    cases hp : processItem st item with
    | error e => rw [hp, exceptStep_error] at h; exact Except.noConfusion h
    | ok st1 =>
      rw [hp, exceptStep_ok] at h
      exact (ih st1 st' (fun i hi => hT i (List.mem_cons_of_mem item hi)) h).trans
        ((processItem_frames st st1 item hp).1 (hT item (List.mem_cons_self item rest)))

theorem runItems_no_catering :
    ∀ (xs : List String) (st st' : Desc × Option (List String)),
      (∀ item ∈ xs, pyStartsWith item "Catering" = false) →
      runItems st xs = .ok st' →
      st'.1.catering = st.1.catering := by
  intro xs
  induction xs with
  | nil =>
    intro st st' _ h
    replace h : Except.ok st = Except.ok st' := h
    injection h with h
    subst h
    rfl
  | cons item rest ih =>
    intro st st' hC h
    replace h : exceptStep (processItem st item) (fun st1 => runItems st1 rest) = .ok st' := h
    cases hp : processItem st item with
    | error e => rw [hp, exceptStep_error] at h; exact Except.noConfusion h
    | ok st1 =>
      rw [hp, exceptStep_ok] at h
      exact (ih st1 st' (fun i hi => hC i (List.mem_cons_of_mem item hi)) h).trans
        ((processItem_frames st st1 item hp).2 (hC item (List.mem_cons_self item rest)))

/-- With no "Technik" paragraph the six equipment outputs keep their
`None` defaults. -/
theorem process_description_no_technik (xs : List String) (d : Desc)
    (hT : ∀ item ∈ xs, pyStartsWith item "Technik" = false)
    (h : process_description xs = .ok d) :
    equipFields d = equipFields defaultDesc := by
  unfold process_description at h
  cases hr : runItems (defaultDesc, none) xs with
  | error e => rw [hr] at h; exact Except.noConfusion h
  | ok st =>
    rw [hr] at h
    injection h with h
    subst h
    exact runItems_no_technik xs (defaultDesc, none) st hT hr

/-- With no "Catering" paragraph the catering output keeps its `None`
default. -/
theorem process_description_no_catering (xs : List String) (d : Desc)
    (hC : ∀ item ∈ xs, pyStartsWith item "Catering" = false)
    (h : process_description xs = .ok d) :
    d.catering = none := by
  unfold process_description at h
  cases hr : runItems (defaultDesc, none) xs with
  | error e => rw [hr] at h; exact Except.noConfusion h
  | ok st =>
    rw [hr] at h
    injection h with h
    subst h
    exact runItems_no_catering xs (defaultDesc, none) st hC hr

/-! ## Provenance of the final rows -/

theorem exceptMapM_ok_mem {α β : Type} (f : α → Except String β) :
    ∀ (l : List α) (out : List β), exceptMapM f l = .ok out →
      ∀ b ∈ out, ∃ a ∈ l, f a = .ok b := by
  intro l
  induction l with
  | nil =>
    intro out h b hb
    replace h : Except.ok ([] : List β) = Except.ok out := h
    injection h with h
    subst h
    exact absurd hb (List.not_mem_nil b)
  | cons a t ih =>
    intro out h b hb
    replace h : exceptStep (f a) (fun b0 => (exceptMapM f t).map (fun bs => b0 :: bs)) = .ok out := h
    cases hfa : f a with
    | error e => rw [hfa, exceptStep_error] at h; exact Except.noConfusion h
    | ok b0 =>
      rw [hfa, exceptStep_ok] at h
      cases hrest : exceptMapM f t with
      | error e => rw [hrest] at h; exact Except.noConfusion h
      | ok bs =>
        rw [hrest] at h
        replace h : Except.ok (b0 :: bs) = Except.ok out := h
        injection h with h
        subst h
        rcases List.mem_cons.mp hb with rfl | hb2
        · exact ⟨a, List.mem_cons_self a t, hfa⟩
        · obtain ⟨a2, ha2, hfa2⟩ := ih bs hrest b hb2
          exact ⟨a2, List.mem_cons_of_mem a ha2, hfa2⟩

/-- Every row of a successfully cleaned table is `mkFinalRow` of a parser
output (the default record when the description was null, else a
successful `process_description` run) together with its successfully
coerced participant count. -/
theorem clean_ok_mem (df : RawDF) (rows : List FinalRow) (row : FinalRow)
    (h : clean_calendar_dataframe df = .ok rows) (hrow : row ∈ rows) :
    ∃ d pc, (d = defaultDesc ∨ ∃ l, process_description l = .ok d) ∧
      coerceCount d.participant_count = .ok pc ∧
      row.equip = d.equipment ∧ row.equip_vr = d.equipment_vr ∧
      row.equip_eyetracking = d.equipment_eye_tracking ∧
      row.equip_clevertouch = d.equipment_clevertouch ∧
      row.equip_monitor = d.equipment_large_monitor ∧
      row.equip_dt = d.equipment_design_thinking ∧
      row.participant_count = pc := by
  unfold clean_calendar_dataframe at h
  split at h
  · cases hp : exceptMapM parseRow (dropDenylist (dropSparse df)).rows with
    | error e => rw [hp] at h; exact Except.noConfusion h
    | ok parsed =>
      rw [hp] at h
      dsimp only at h
      obtain ⟨t, _, hct⟩ := exceptMapM_ok_mem coerceRow parsed rows h row hrow
      obtain ⟨r0, _, hpt⟩ := exceptMapM_ok_mem parseRow _ parsed hp t ‹t ∈ parsed›
      unfold coerceRow at hct
      cases hcc : coerceCount t.2.2.participant_count with
      | error e => rw [hcc] at hct; exact Except.noConfusion hct
      | ok pc =>
        rw [hcc] at hct
        replace hct : Except.ok (mkFinalRow t.1 t.2.1 t.2.2 pc) = Except.ok row := hct
        injection hct with hct
        subst hct
        refine ⟨t.2.2, pc, ?_, hcc, rfl, rfl, rfl, rfl, rfl, rfl, rfl⟩
        unfold parseRow at hpt
        cases hdl : descListOfRow r0 with
        | none =>
          rw [hdl] at hpt
          dsimp only at hpt
          replace hpt : Except.ok (r0, (none : Option (List String)), defaultDesc) = Except.ok t := hpt
          injection hpt with hpt
          left
          rw [← hpt]
        | some l =>
          rw [hdl] at hpt
          dsimp only at hpt
          cases hpd : process_description l with
          | error e => rw [hpd] at hpt; exact Except.noConfusion hpt
          | ok d0 =>
            rw [hpd] at hpt
            replace hpt : Except.ok (r0, some l, d0) = Except.ok t := hpt
            injection hpt with hpt
            right
            refine ⟨l, ?_⟩
            rw [← hpt]
            exact hpd
  · exact Except.noConfusion h

/-! ## Single-paragraph evaluation helpers -/

/-- Two incomparable labels cannot both prefix the same item. -/
theorem pyStartsWith_excl (item p q : String)
    (h : pyStartsWith item p = true)
    (h1 : List.isPrefixOf q.data p.data = false)
    (h2 : List.isPrefixOf p.data q.data = false) :
    pyStartsWith item q = false := by
  unfold pyStartsWith at h ⊢
  by_contra hq
  rw [Bool.not_eq_false] at hq
  have hp2 := List.isPrefixOf_iff_prefix.mp h
  have hq2 := List.isPrefixOf_iff_prefix.mp hq
  rcases List.prefix_or_prefix_of_prefix hq2 hp2 with hc | hc
  · rw [List.isPrefixOf_iff_prefix.mpr hc] at h1
    exact Bool.noConfusion h1
  · rw [List.isPrefixOf_iff_prefix.mpr hc] at h2
    exact Bool.noConfusion h2

theorem splitFirstAux_mem (p : Char → Bool) :
    ∀ (l a b : List Char), splitFirstAux p l = some (a, b) → ∃ c ∈ l, p c = true := by
  intro l
  induction l with
  | nil => intro a b h; exact Option.noConfusion h
  | cons c t ih =>
    intro a b h
    unfold splitFirstAux at h
    split at h
    · rename_i hpc
      exact ⟨c, List.mem_cons_self c t, hpc⟩
    · cases hs : splitFirstAux p t with
      | none => rw [hs] at h; exact Option.noConfusion h
      | some ab =>
        obtain ⟨c2, hc2, hpc2⟩ := ih ab.1 ab.2 (by rw [hs])
        exact ⟨c2, List.mem_cons_of_mem c hc2, hpc2⟩

/-- A one-paragraph description evaluates to whatever `processItem` makes
of that paragraph. -/
theorem process_description_single (item : String) (d : Desc) (es : Option (List String))
    (h : processItem (defaultDesc, none) item = .ok (d, es)) :
    process_description [item] = .ok d := by
  show (match runItems (defaultDesc, none) [item] with
        | Except.error e => Except.error e
        | Except.ok st => Except.ok st.1) = Except.ok d
  have h1 : runItems (defaultDesc, none) [item] = .ok (d, es) := by
    show exceptStep (processItem (defaultDesc, none) item) (fun st1 => runItems st1 []) = .ok (d, es)
    rw [h, exceptStep_ok]
    rfl
  rw [h1]

/-! ## Claim theorems -/

/-- C1 (counterexample): the claim says a structurally empty event set
yields an empty normalized table; in fact the pipeline raises, because
the empty raw table has no DESCRIPTION column and
`temp_df_processed['DESCRIPTION']` is a KeyError. -/
theorem pipeline_empty_input_raises_keyerror :
    pipeline [] = Except.error "KeyError: DESCRIPTION" := rfl

/-- C1 (amended): the first stage does map an empty event set to an empty
table, but `clean_calendar_dataframe` then raises a KeyError on the
missing DESCRIPTION column instead of returning an empty table, so the
pipeline has a fatal error condition on empty input. -/
theorem empty_event_set_keyerror_amended :
    create_dataframe_from_calendar [] = { cols := [], rows := [] } ∧
    clean_calendar_dataframe { cols := [], rows := [] } =
      Except.error "KeyError: DESCRIPTION" :=
  ⟨rfl, rfl⟩

/-- C2: the claim says `process_description` is total; in fact a
"Teilnehmer" paragraph whose text contains a hyphen with no digits after
it raises AttributeError (`re.match(...).group(0)` on `None`,
process_cal.py:346), and a "Technik" paragraph with no text after the
label raises UnboundLocalError (`equipment_split` referenced on the
falsy path, process_cal.py:369) — the code contradicts the intended
silent-degradation policy. -/
theorem process_description_partial_on_bad_input :
    process_description ["Teilnehmer: zehn-zwanzig"] =
      Except.error "AttributeError: NoneType object has no attribute group" ∧
    process_description ["Technik:"] =
      Except.error "UnboundLocalError: equipment_split referenced before assignment" :=
  ⟨rfl, rfl⟩

/-- C3: in every row of a successfully cleaned table, either all six
equipment columns are set and `equip` is exactly the OR of the five
sub-flags (in the order vr, eyetracking, clevertouch, monitor, dt), or —
when the description had no Technik paragraph — all six are jointly
unset. -/
theorem equip_eq_or_of_subflags (df : RawDF) (rows : List FinalRow) (row : FinalRow)
    (h : clean_calendar_dataframe df = .ok rows) (hrow : row ∈ rows) :
    (∃ b1 b2 b3 b4 b5, row.equip_vr = some b1 ∧ row.equip_eyetracking = some b2 ∧
      row.equip_clevertouch = some b3 ∧ row.equip_monitor = some b4 ∧
      row.equip_dt = some b5 ∧ row.equip = some (b1 || b2 || b3 || b4 || b5)) ∨
    (row.equip = none ∧ row.equip_vr = none ∧ row.equip_eyetracking = none ∧
      row.equip_clevertouch = none ∧ row.equip_monitor = none ∧ row.equip_dt = none) := by
  obtain ⟨d, pc, hprov, hcc, he, hvr, heye, hclev, hmon, hdt, hpc⟩ :=
    clean_ok_mem df rows row h hrow
  have hok : EquipOkT (equipFields d) := by
    rcases hprov with rfl | ⟨l, hl⟩
    · exact Or.inl ⟨rfl, rfl, rfl, rfl, rfl, rfl⟩
    · exact process_description_equipOk l d hl
  rcases hok with ⟨h1, h2, h3, h4, h5, h6⟩ | ⟨b1, b2, b3, b4, b5, hb1, hb2, hb3, hb4, hb5, hbe⟩
  · exact Or.inr ⟨he.trans h1, hvr.trans h2, heye.trans h3, hclev.trans h4,
      hmon.trans h5, hdt.trans h6⟩
  · exact Or.inl ⟨b1, b2, b3, b4, b5, hvr.trans hb1, heye.trans hb2, hclev.trans hb3,
      hmon.trans hb4, hdt.trans hb5, he.trans hbe⟩

def dfEquip : RawDF :=
  ⟨["DESCRIPTION"], [[("DESCRIPTION", some "Technik: VR-Brille, Clevertouch")]]⟩

def rowsEquip : List FinalRow := (clean_calendar_dataframe dfEquip).toOption.getD []

def rowEquip : FinalRow := rowsEquip.headD default

/-- Witness for C3 at a concrete one-row table. -/
theorem equip_eq_or_of_subflags_witness :
    (∃ b1 b2 b3 b4 b5, rowEquip.equip_vr = some b1 ∧ rowEquip.equip_eyetracking = some b2 ∧
      rowEquip.equip_clevertouch = some b3 ∧ rowEquip.equip_monitor = some b4 ∧
      rowEquip.equip_dt = some b5 ∧ rowEquip.equip = some (b1 || b2 || b3 || b4 || b5)) ∨
    (rowEquip.equip = none ∧ rowEquip.equip_vr = none ∧ rowEquip.equip_eyetracking = none ∧
      rowEquip.equip_clevertouch = none ∧ rowEquip.equip_monitor = none ∧
      rowEquip.equip_dt = none) :=
  equip_eq_or_of_subflags dfEquip rowsEquip rowEquip rfl (by decide)

/-- C7: every row of a successfully cleaned table has a non-negative
participant count, and a null (absent or unparsable) count is coerced to
exactly 0.  (A parsed count of 32768 or more does not yield a row at
all: the int16 conversion raises, so no final table exists for it.) -/
theorem participant_count_nonneg (df : RawDF) (rows : List FinalRow) (row : FinalRow)
    (h : clean_calendar_dataframe df = .ok rows) (hrow : row ∈ rows) :
    0 ≤ row.participant_count ∧ coerceCount none = Except.ok 0 := by
  obtain ⟨d, pc, hprov, hcc, he, hvr, heye, hclev, hmon, hdt, hpc⟩ :=
    clean_ok_mem df rows row h hrow
  refine ⟨?_, rfl⟩
  rw [hpc]
  cases hd : d.participant_count with
  | none =>
    rw [hd] at hcc
    replace hcc : Except.ok (0 : Int) = Except.ok pc := hcc
    injection hcc with hcc
    rw [← hcc]
  | some s =>
    rw [hd] at hcc
    unfold coerceCount at hcc
    dsimp only at hcc
    split at hcc
    · injection hcc with hcc
      rw [← hcc]
      exact Int.natCast_nonneg _
    · exact Except.noConfusion hcc

def dfCount : RawDF := ⟨["DESCRIPTION"], [[("DESCRIPTION", some "Teilnehmer: ca. 15")]]⟩

def rowsCount : List FinalRow := (clean_calendar_dataframe dfCount).toOption.getD []

def rowCount : FinalRow := rowsCount.headD default

/-- Witness for C7 at a concrete one-row table. -/
theorem participant_count_nonneg_witness :
    0 ≤ rowCount.participant_count ∧ coerceCount none = Except.ok 0 :=
  participant_count_nonneg dfCount rowsCount rowCount rfl (by decide)

/-- C8 (counterexample): the claim says a row without a Technik paragraph
has `equip` (and sub-flags) false, and a row without a Catering
paragraph has `catering` false; in fact the final table keeps them null
(`None`), because the dtype loop has no branch for the bool columns
(process_cal.py:481-487). -/
theorem absent_technik_null_cex :
    (clean_calendar_dataframe ⟨["DESCRIPTION"], [[("DESCRIPTION", some "Kategorie: A, B")]]⟩).map
        (fun rows => rows.map (fun row => (row.equip, row.equip_vr, row.catering))) =
      Except.ok [((none : Option Bool), (none : Option Bool), (none : Option Bool))] ∧
    (none : Option Bool) ≠ some false :=
  ⟨rfl, by decide⟩

/-- C8 (amended): a row whose description has no Technik paragraph has
`equip` and all five sub-flags null (unset, not false) in the final
table, and a row with no Catering paragraph has `catering` null. -/
theorem absent_label_null_amended (xs : List String) (d : Desc)
    (r : List (String × Option String)) (dl : Option (List String)) (pc : Int)
    (hok : process_description xs = .ok d) :
    ((∀ item ∈ xs, pyStartsWith item "Technik" = false) →
      (mkFinalRow r dl d pc).equip = none ∧ (mkFinalRow r dl d pc).equip_vr = none ∧
      (mkFinalRow r dl d pc).equip_eyetracking = none ∧
      (mkFinalRow r dl d pc).equip_clevertouch = none ∧
      (mkFinalRow r dl d pc).equip_monitor = none ∧
      (mkFinalRow r dl d pc).equip_dt = none) ∧
    ((∀ item ∈ xs, pyStartsWith item "Catering" = false) →
      (mkFinalRow r dl d pc).catering = none) := by
  constructor
  · intro hT
    have h := process_description_no_technik xs d hT hok
    exact ⟨congrArg (fun t => t.1) h, congrArg (fun t => t.2.1) h,
      congrArg (fun t => t.2.2.1) h, congrArg (fun t => t.2.2.2.1) h,
      congrArg (fun t => t.2.2.2.2.1) h, congrArg (fun t => t.2.2.2.2.2) h⟩
  · intro hC
    exact process_description_no_catering xs d hC hok

def descAnm : Desc := (process_description ["Anmerkung: test"]).toOption.getD defaultDesc

/-- Witness for C8 at a concrete description with neither label. -/
theorem absent_label_null_amended_witness :
    ((mkFinalRow [] none descAnm 0).equip = none ∧ (mkFinalRow [] none descAnm 0).equip_vr = none ∧
      (mkFinalRow [] none descAnm 0).equip_eyetracking = none ∧
      (mkFinalRow [] none descAnm 0).equip_clevertouch = none ∧
      (mkFinalRow [] none descAnm 0).equip_monitor = none ∧
      (mkFinalRow [] none descAnm 0).equip_dt = none) ∧
    (mkFinalRow [] none descAnm 0).catering = none :=
  ⟨(absent_label_null_amended ["Anmerkung: test"] descAnm [] none 0 rfl).1 (by decide),
   (absent_label_null_amended ["Anmerkung: test"] descAnm [] none 0 rfl).2 (by decide)⟩

/-- C9: during normalization, a column is removed by the sparse-column
step iff its non-null count is strictly below 5% of the row count
(`count < len/100*5`, embedded exactly as `20*count < len`); columns at
exactly 5% or more survive the step. -/
theorem sparse_column_drop_iff (df : RawDF) (c : String) (hc : c ∈ df.cols) :
    c ∉ (dropSparse df).cols ↔ 20 * countNonNull df c < df.rows.length := by
  show c ∉ df.cols.filter (fun c => 20 * countNonNull df c ≥ df.rows.length) ↔ _
  rw [List.mem_filter]
  constructor
  · intro h
    by_contra hno
    exact h ⟨hc, by simp; omega⟩
  · intro hlt hmem
    have h2 := of_decide_eq_true hmem.2
    omega

def dfSparse : RawDF :=
  ⟨["A"], List.replicate 19 [("A", (none : Option String))] ++ [[("A", some "x")]]⟩

/-- Witness for C9: a column populated in exactly 1 of 20 rows (exactly
5%) survives the sparse-column drop. -/
theorem sparse_column_drop_iff_witness :
    "A" ∈ dfSparse.cols ∧
    ("A" ∉ (dropSparse dfSparse).cols ↔ 20 * countNonNull dfSparse "A" < dfSparse.rows.length) :=
  ⟨by decide, sparse_column_drop_iff dfSparse "A" (by decide)⟩

/-- C10: each canonicalization table is idempotent on its own canonical
output labels: re-cleaning any canonical label of the category,
organiser, or organiser-detail table returns it unchanged. -/
theorem canonicalization_idempotent :
    clean_event_category "Interne Veranstaltung" = "Interne Veranstaltung" ∧
    clean_event_category "Führung" = "Führung" ∧
    clean_event_category "Lehrveranstaltung" = "Lehrveranstaltung" ∧
    clean_event_category "Workshop" = "Workshop" ∧
    clean_organiser "UB" = "UB" ∧
    clean_organiser "Uni" = "Uni" ∧
    clean_organiser_detail "Institut für Sport" = "Institut für Sport" ∧
    clean_organiser_detail "Social Science" = "Social Science" ∧
    clean_organiser_detail "BWL" = "BWL" ∧
    clean_organiser_detail "Jura" = "Jura" ∧
    clean_organiser_detail "Wirtschaftsinformatik" = "Wirtschaftsinformatik" ∧
    clean_organiser_detail "Philosophische Fakultät" = "Philosophische Fakultät" ∧
    clean_organiser_detail "Stud.-Initiative X" = "Stud.-Initiative X" ∧
    clean_organiser_detail "Stud.-Initiative Y" = "Stud.-Initiative Y" ∧
    clean_organiser_detail "Stud.-Initiative Z" = "Stud.-Initiative Z" ∧
    clean_organiser_detail "Universitäts-IT" = "Universitäts-IT" ∧
    clean_organiser_detail "Universitätsbibliothek" = "Universitätsbibliothek" ∧
    clean_organiser_detail "Uni Verwaltung" = "Uni Verwaltung" ∧
    clean_organiser_detail "Fachschaftsrat" = "Fachschaftsrat" := by
  decide

/-- C4 (counterexample): for "Veranstalter: UB:" the second colon part is
the empty string; the claim says it becomes `organiser_detail`
(canonicalized — and the tables leave "" unchanged), but the code
treats the empty string as falsy and defaults `organiser_detail` to the
canonicalized organiser "UB" instead. -/
theorem veranstalter_empty_detail_cex :
    (process_description ["Veranstalter: UB:"]).map (fun d => d.organiser_detail) =
      Except.ok (some "UB") ∧
    clean_organiser_detail "" = "" ∧
    (some "UB" : Option String) ≠ some (clean_organiser_detail "") :=
  ⟨rfl, rfl, by decide⟩

/-- C4 (amended): on a fresh record, a Veranstalter paragraph is split
once on colon; with a colon, the first part becomes `organiser`
(canonicalized when nonempty) and the second part becomes
`organiser_detail` (canonicalized) only when it is nonempty — an empty
second part, like an absent colon, leaves `organiser_detail` defaulting
to the organiser value; with no colon nothing is assigned at all (so
both fields stay unset). -/
theorem veranstalter_rule_amended :
    ∀ (item r : String), pyStartsWith item "Veranstalter" = true →
      split_item item = some r → r ≠ "" →
      ((∀ a b : List Char, splitFirstAux (fun c => c = ':') r.data = some (a, b) →
          process_description [item] = .ok { defaultDesc with
            organiser := some (if pyStrip ⟨a⟩ = "" then pyStrip ⟨a⟩
              else clean_organiser (pyStrip ⟨a⟩))
            organiser_detail := some (if pyStrip ⟨b⟩ = ""
              then (if pyStrip ⟨a⟩ = "" then pyStrip ⟨a⟩ else clean_organiser (pyStrip ⟨a⟩))
              else clean_organiser_detail (pyStrip ⟨b⟩)) }) ∧
       (splitFirstAux (fun c => c = ':') r.data = none →
          process_description [item] = .ok defaultDesc)) := by
  intro item r hV hsi hr
  have hK : pyStartsWith item "Kategorie" = false :=
    pyStartsWith_excl item "Veranstalter" "Kategorie" hV (by decide) (by decide)
  have hpi : processItem (defaultDesc, none) item =
      Except.ok (procVeranstalter defaultDesc item, none) := by
    unfold processItem
    rw [if_neg (by simp [hK]), if_pos hV]
  have hpd := process_description_single item (procVeranstalter defaultDesc item) none hpi
  constructor
  · intro a b hsp
    rw [hpd]
    have hcs : hasColonOrSpace r = true := by
      obtain ⟨c, hc, hpc⟩ := splitFirstAux_mem _ r.data a b hsp
      unfold hasColonOrSpace
      rw [List.any_eq_true]
      refine ⟨c, hc, ?_⟩
      simp only [decide_eq_true_eq] at hpc
      simp [hpc]
    have hpv : procVeranstalter defaultDesc item =
        veranstalterDetail (veranstalterCleanOrg (veranstalterAssign defaultDesc r)) := by
      unfold procVeranstalter
      rw [hsi]
      dsimp only
      rw [if_neg hr, hcs]
      rfl
    rw [hpv]
    unfold veranstalterAssign
    rw [hsp]
    dsimp only
    unfold veranstalterCleanOrg
    dsimp only
    by_cases ha : pyStrip ⟨a⟩ = ""
    · rw [if_pos ha]
      unfold veranstalterDetail
      dsimp only
      by_cases hb : pyStrip ⟨b⟩ = ""
      · rw [if_pos hb]
        simp only [if_pos ha, if_pos hb]
      · rw [if_neg hb]
        simp only [if_pos ha, if_neg hb]
    · rw [if_neg ha]
      unfold veranstalterDetail
      dsimp only
      by_cases hb : pyStrip ⟨b⟩ = ""
      · rw [if_pos hb]
        simp only [if_neg ha, if_pos hb]
      · rw [if_neg hb]
        simp only [if_neg ha, if_neg hb]
  · intro hsp
    rw [hpd]
    have hpv : procVeranstalter defaultDesc item = defaultDesc := by
      unfold procVeranstalter
      rw [hsi]
      dsimp only
      rw [if_neg hr]
      by_cases hcs : hasColonOrSpace r = true
      · rw [hcs]
        unfold veranstalterAssign
        rw [hsp]
        rfl
      · rw [Bool.not_eq_true] at hcs
        rw [hcs]
        rfl
    rw [hpv]

/-- Witness for C4: "Veranstalter: UB: FDZ" has a colon, so the first
part canonicalizes to "UB" and the nonempty second part canonicalizes
(via the 'fdz' key) to "Universitätsbibliothek". -/
theorem veranstalter_rule_amended_witness :
    process_description ["Veranstalter: UB: FDZ"] =
      .ok { defaultDesc with
            organiser := some "UB"
            organiser_detail := some "Universitätsbibliothek" } := by
  have h := (veranstalter_rule_amended "Veranstalter: UB: FDZ" "UB: FDZ" (by decide) rfl
    (by decide)).1 "UB".data " FDZ".data rfl
  exact h

/-- C5 (counterexample): for "Kategorie: Workshop Test" (whitespace but
neither colon nor comma in the text after the label) the claim says the
first split part — the whole text, unchanged by the table — becomes
`event_category`; in fact the code assigns only when the split yields
two parts, so nothing is set. -/
theorem kategorie_one_part_cex :
    (process_description ["Kategorie: Workshop Test"]).map
        (fun d => (d.event_category, d.event_description)) =
      Except.ok ((none : Option String), (none : Option String)) ∧
    clean_event_category "Workshop Test" = "Workshop Test" ∧
    (none : Option String) ≠ some (clean_event_category "Workshop Test") :=
  ⟨rfl, rfl, by decide⟩

/-- C5 (amended): on a fresh record, a Kategorie paragraph whose text
after the label contains a colon or whitespace is split once on
colon-or-comma; only when the split yields two parts does the first
part (canonicalized when nonempty) become `event_category` and the
second `event_description`; with neither colon nor comma nothing is
assigned.  Scenario A holds as specified. -/
theorem kategorie_rule_amended :
    (∀ (item r : String), pyStartsWith item "Kategorie" = true →
      split_item item = some r → r ≠ "" → hasColonOrSpace r = true →
      ((∀ a b : List Char, splitFirstAux (fun c => c = ':' || c = ',') r.data = some (a, b) →
          process_description [item] = .ok { defaultDesc with
            event_category := some (if pyStrip ⟨a⟩ = "" then pyStrip ⟨a⟩
              else clean_event_category (pyStrip ⟨a⟩))
            event_description := some (pyStrip ⟨b⟩) }) ∧
       (splitFirstAux (fun c => c = ':' || c = ',') r.data = none →
          process_description [item] = .ok defaultDesc))) ∧
    process_description ["Kategorie: Workshop, Einführung VR"] =
      .ok { defaultDesc with
            event_category := some "Workshop"
            event_description := some "Einführung VR" } := by
  constructor
  · intro item r hKat hsi hr hcs
    have hpi : processItem (defaultDesc, none) item =
        Except.ok (procKategorie defaultDesc item, none) := by
      unfold processItem
      rw [if_pos hKat]
    have hpd := process_description_single item (procKategorie defaultDesc item) none hpi
    constructor
    · intro a b hsp
      rw [hpd]
      have hpk : procKategorie defaultDesc item = { defaultDesc with
          event_category := some (if pyStrip ⟨a⟩ = "" then pyStrip ⟨a⟩
            else clean_event_category (pyStrip ⟨a⟩))
          event_description := some (pyStrip ⟨b⟩) } := by
        unfold procKategorie
        rw [hsi]
        dsimp only
        rw [if_neg hr, hcs]
        rw [hsp]
        rfl
      rw [hpk]
    · intro hsp
      rw [hpd]
      have hpk : procKategorie defaultDesc item = defaultDesc := by
        unfold procKategorie
        rw [hsi]
        dsimp only
        rw [if_neg hr, hcs]
        rw [hsp]
        rfl
      rw [hpk]
  · rfl

/-- Witness for C5: "Kategorie: Seminar ABC, mit Anmeldung" splits on the
comma; "Seminar ABC" canonicalizes (via the 'seminar' key) to
"Lehrveranstaltung" and the second part becomes the description. -/
theorem kategorie_rule_amended_witness :
    process_description ["Kategorie: Seminar ABC, mit Anmeldung"] =
      .ok { defaultDesc with
            event_category := some "Lehrveranstaltung"
            event_description := some "mit Anmeldung" } := by
  have h := ((kategorie_rule_amended.1 "Kategorie: Seminar ABC, mit Anmeldung"
    "Seminar ABC, mit Anmeldung" (by decide) rfl (by decide) (by decide)).1
    "Seminar ABC".data " mit Anmeldung".data rfl)
  exact h

/-- C6: on a fresh record, a Teilnehmer paragraph with a hyphen in the
text after the label takes the leading run of digits after the first
hyphen (when such a run exists) as `participant_count`; without a hyphen
it takes the first run of digits anywhere, or leaves the count unset
when there is none.  The scenarios hold with the final coercion:
"Teilnehmer: 10-20" gives 20, "Teilnehmer: ca. 15" gives 15, and the
empty "Teilnehmer:" gives 0. -/
theorem teilnehmer_rule :
    (∀ (item r : String), pyStartsWith item "Teilnehmer" = true →
      split_item item = some r → r ≠ "" →
      (((pyStrip r).data.any (fun c => c = '-') = true →
        ∀ run : List Char,
          run = (pyStripList ((splitAllAux (fun c => c = '-') (pyStrip r).data).getD 1
            [])).takeWhile Char.isDigit →
          run ≠ [] →
          process_description [item] = .ok { defaultDesc with participant_count := some ⟨run⟩ }) ∧
       ((pyStrip r).data.any (fun c => c = '-') = false →
        process_description [item] = .ok { defaultDesc with
          participant_count := (searchDigitsAux (pyStrip r).data).map
            (fun run => (⟨run⟩ : String)) }))) ∧
    exceptStep (process_description ["Teilnehmer: 10-20"])
      (fun d => coerceCount d.participant_count) = Except.ok (20 : Int) ∧
    exceptStep (process_description ["Teilnehmer: ca. 15"])
      (fun d => coerceCount d.participant_count) = Except.ok (15 : Int) ∧
    exceptStep (process_description ["Teilnehmer:"])
      (fun d => coerceCount d.participant_count) = Except.ok (0 : Int) := by
  refine ⟨?_, rfl, rfl, rfl⟩
  intro item r hT hsi hr
  have hK : pyStartsWith item "Kategorie" = false :=
    pyStartsWith_excl item "Teilnehmer" "Kategorie" hT (by decide) (by decide)
  have hV : pyStartsWith item "Veranstalter" = false :=
    pyStartsWith_excl item "Teilnehmer" "Veranstalter" hT (by decide) (by decide)
  constructor
  · intro hany run hrun hne
    have hnil : pyStrip r ≠ "" := by
      intro h0
      have h1 : (pyStrip r).data = [] := by rw [h0]
      rw [h1] at hany
      exact Bool.noConfusion hany
    have hteil : procTeilnehmer defaultDesc item =
        .ok { defaultDesc with participant_count := some ⟨run⟩ } := by
      unfold procTeilnehmer
      rw [hsi]
      dsimp only
      rw [if_neg hr, if_pos ⟨hnil, hany⟩, ← hrun, if_neg hne]
    have hpi : processItem (defaultDesc, none) item =
        Except.ok ({ defaultDesc with participant_count := some ⟨run⟩ }, none) := by
      unfold processItem
      rw [if_neg (by simp [hK]), if_neg (by simp [hV]), if_pos hT, hteil]
      rfl
    exact process_description_single item _ none hpi
  · intro hany
    have hcond : ¬(pyStrip r ≠ "" ∧ (pyStrip r).data.any (fun c => c = '-') = true) := by
      intro hc
      rw [hany] at hc
      exact Bool.noConfusion hc.2
    have hteil : procTeilnehmer defaultDesc item =
        .ok { defaultDesc with
          participant_count := (searchDigitsAux (pyStrip r).data).map
            (fun run => (⟨run⟩ : String)) } := by
      unfold procTeilnehmer
      rw [hsi]
      dsimp only
      rw [if_neg hr, if_neg hcond]
      cases searchDigitsAux (pyStrip r).data with
      | none => rfl
      | some run => rfl
    have hpi : processItem (defaultDesc, none) item =
        Except.ok ({ defaultDesc with
          participant_count := (searchDigitsAux (pyStrip r).data).map
            (fun run => (⟨run⟩ : String)) }, none) := by
      unfold processItem
      rw [if_neg (by simp [hK]), if_neg (by simp [hV]), if_pos hT, hteil]
      rfl
    exact process_description_single item _ none hpi

/-- Witness for C6 at a range with trailing text: the digits after the
hyphen win. -/
theorem teilnehmer_rule_witness :
    process_description ["Teilnehmer: 10-20 Personen"] =
      .ok { defaultDesc with participant_count := some "20" } := by
  have h := ((teilnehmer_rule.1 "Teilnehmer: 10-20 Personen" "10-20 Personen" (by decide) rfl
    (by decide)).1 (by decide) "20".data rfl (by decide))
  exact h

end Labcal
